import Mathlib

/-
Verification development for the MalleableWeb browser extension core:
the DOM serializer, relevance matcher, selector synthesizer,
generated-class-name classifiers, rule validator and the persisted-rule
storage/failure-classification layer.  All definitions are shallow
embeddings of the TypeScript source (src/content/dom-serializer.ts,
src/content/rule-validator.ts, src/shared/storage.ts, src/shared/constants.ts,
src/background/service-worker.ts, the options-page toggle handler and the
element-picker module).  Machine integers do not occur: all counts are
natural numbers, JavaScript string lengths are modelled as codepoint
counts (identical on the ASCII data involved), and computed-style opacity
is modelled as the rational number that parseFloat would return.
-/

/- ===== JavaScript string primitives ===== -/

/-- Occurrence of sub as a contiguous sublist of hay (an empty sub always
occurs). -/
def hasSubList (hay sub : List Char) : Bool :=
  if sub.isPrefixOf hay then true
  else
    match hay with
    | [] => false
    | _ :: t => hasSubList t sub

/-- JS s.includes(sub): substring occurrence test. -/
def jsIncludes (s sub : String) : Bool :=
  hasSubList s.data sub.data

/-- JS s.startsWith(pre): string prefix test. -/
def jsStartsWith (s pre : String) : Bool :=
  pre.data.isPrefixOf s.data

/-- JS s.toLowerCase(), on the ASCII data of this codebase. -/
def toLowerStr (s : String) : String :=
  ⟨s.data.map Char.toLower⟩

/-- JS s.trim(): strip whitespace from both ends. -/
def trimStr (s : String) : String :=
  ⟨((s.data.dropWhile Char.isWhitespace).reverse.dropWhile Char.isWhitespace).reverse⟩

/-- JS s.split(sep) for a one-character separator: split at every
occurrence, keeping empty pieces. -/
def jsSplitChar (s : String) (sep : Char) : List String :=
  (s.data.splitOn sep).map (fun l => ⟨l⟩)

/-- Split at every single whitespace character, keeping empty pieces.
A split on the regex bs-s-plus differs only by merging adjacent empty
pieces, which the keyword filter (length over 2) discards anyway, so the
resulting keyword lists coincide. -/
def jsSplitWsAux : List Char → List Char → List String
  | [], acc => [⟨acc.reverse⟩]
  | c :: cs, acc =>
    if c.isWhitespace then ⟨acc.reverse⟩ :: jsSplitWsAux cs []
    else jsSplitWsAux cs (c :: acc)

/-- Split a string at each whitespace character. -/
def jsSplitWs (s : String) : List String :=
  jsSplitWsAux s.data []

/-- JS text.replace(bs-s-plus, " "): collapse every maximal run of
whitespace characters into a single space.  The flag records whether the
previous character was whitespace. -/
def collapseWsAux : List Char → Bool → List Char
  | [], _ => []
  | c :: cs, prev =>
    if c.isWhitespace then
      (if prev then collapseWsAux cs true else ' ' :: collapseWsAux cs true)
    else c :: collapseWsAux cs false

/-- Collapse whitespace runs in a string (model of replace(bs-s-plus, " ")). -/
def collapseWs (s : String) : String :=
  ⟨collapseWsAux s.data false⟩

/- ===== Character classes for the regular-expression models ===== -/

/-- Character class [a-z]. -/
def isLatinLower (c : Char) : Bool := decide ('a' ≤ c) && decide (c ≤ 'z')

/-- Character class [A-Z]. -/
def isLatinUpper (c : Char) : Bool := decide ('A' ≤ c) && decide (c ≤ 'Z')

/-- Character class [a-zA-Z]. -/
def isLatinLetter (c : Char) : Bool := isLatinLower c || isLatinUpper c

/-- Character class [0-9]. -/
def isDigitCh (c : Char) : Bool := decide ('0' ≤ c) && decide (c ≤ '9')

/-- Character class [a-zA-Z0-9]. -/
def isAlnumCh (c : Char) : Bool := isLatinLetter c || isDigitCh c

/-- Strip a case-sensitive literal prefix, returning the remainder. -/
def dropLit : List Char → List Char → Option (List Char)
  | [], l => some l
  | _ :: _, [] => none
  | p :: ps, c :: cs => if c = p then dropLit ps cs else none

/-- Strip a case-insensitive literal prefix, returning the remainder. -/
def dropLitCI : List Char → List Char → Option (List Char)
  | [], l => some l
  | _ :: _, [] => none
  | p :: ps, c :: cs => if c.toLower = p.toLower then dropLitCI ps cs else none

/-- One-or-more repetition of a character class, anchored to the end:
the remainder is nonempty and every character belongs to the class. -/
def allPlus (p : Char → Bool) (l : List Char) : Bool :=
  !l.isEmpty && l.all p

/- ===== Models of the individual class-name regular expressions =====

Each definition models one pattern literal from the source; the anchored
alternation-free patterns are translated clause by clause.  For the
patterns of the form X+ Y X+ where the class X excludes the separator Y,
backtracking never helps, so the first X+ factor is necessarily the
maximal run, and takeWhile/dropWhile give exactly the regex semantics. -/

/-- Pattern css-[a-z0-9]+ anchored both ends, case-insensitive
(shared by STRIP_CLASS_PATTERNS and ElementPicker.isGeneratedClass). -/
def reCssHash (s : String) : Bool :=
  match dropLitCI "css-".data s.data with
  | some r => allPlus isAlnumCh r
  | none => false

/-- Pattern sc-[a-z]+ anchored both ends, case-insensitive
(STRIP_CLASS_PATTERNS entry for styled-components). -/
def reScWordCI (s : String) : Bool :=
  match dropLitCI "sc-".data s.data with
  | some r => allPlus isLatinLetter r
  | none => false

/-- Pattern jsx-[0-9]+ anchored both ends, case-sensitive
(STRIP_CLASS_PATTERNS entry for JSX). -/
def reJsxDigits (s : String) : Bool :=
  match dropLit "jsx-".data s.data with
  | some r => allPlus isDigitCh r
  | none => false

/-- Pattern _[a-zA-Z0-9]{5,} anchored both ends
(hashed-name entry, shared by both classifiers). -/
def reUnderscoreHash (s : String) : Bool :=
  match s.data with
  | '_' :: r => decide (r.length ≥ 5) && r.all isAlnumCh
  | _ => false

/-- Pattern [a-z]{1,2}[0-9]{minDigits,} anchored both ends,
case-insensitive; minDigits is 2 in STRIP_CLASS_PATTERNS and 3 in
ElementPicker.isGeneratedClass. -/
def reMinified (minDigits : Nat) (s : String) : Bool :=
  let run := s.data.takeWhile isLatinLetter
  let rest := s.data.dropWhile isLatinLetter
  decide (1 ≤ run.length) && decide (run.length ≤ 2) &&
    decide (rest.length ≥ minDigits) && rest.all isDigitCh

/-- Pattern sc-[a-zA-Z]+-[a-zA-Z0-9]+ anchored both ends, case-sensitive
(ElementPicker entry for styled-components). -/
def reScTwoPart (s : String) : Bool :=
  match dropLit "sc-".data s.data with
  | some r =>
    let run := r.takeWhile isLatinLetter
    let rest := r.dropWhile isLatinLetter
    !run.isEmpty &&
      (match rest with
       | '-' :: b => allPlus isAlnumCh b
       | _ => false)
  | none => false

/-- Pattern [a-zA-Z]+__[a-zA-Z]+-[a-zA-Z0-9]+ anchored both ends
(ElementPicker entry for CSS modules). -/
def reCssModules (s : String) : Bool :=
  let run := s.data.takeWhile isLatinLetter
  let rest := s.data.dropWhile isLatinLetter
  !run.isEmpty &&
    (match rest with
     | '_' :: '_' :: r2 =>
       let run2 := r2.takeWhile isLatinLetter
       let rest2 := r2.dropWhile isLatinLetter
       !run2.isEmpty &&
         (match rest2 with
          | '-' :: b => allPlus isAlnumCh b
          | _ => false)
     | _ => false)

/-- Pattern jsx-[a-z0-9]+ anchored both ends, case-insensitive
(ElementPicker entry for styled-jsx). -/
def reJsxAlnumCI (s : String) : Bool :=
  match dropLitCI "jsx-".data s.data with
  | some r => allPlus isAlnumCh r
  | none => false

/- ===== The two generated-class-name classifiers ===== -/

/-- STRIP_CLASS_PATTERNS.some(pattern => pattern.test(c)) from
src/shared/constants.ts: the DOM serializer strips class c iff this is
true.  The last two entries, emotion- and mui-, are anchored only at the
start, so they are prefix tests. -/
def stripClassTest (c : String) : Bool :=
  reCssHash c || reScWordCI c || reJsxDigits c || reUnderscoreHash c ||
    reMinified 2 c || jsStartsWith c "emotion-" || jsStartsWith c "mui-"

/-- ElementPicker.isGeneratedClass from the element-picker module. -/
def isGeneratedClass (c : String) : Bool :=
  reCssHash c || reScTwoPart c || reCssModules c || reUnderscoreHash c ||
    reMinified 3 c || reJsxAlnumCI c

/-- filterClasses from src/content/dom-serializer.ts: keep the classes no
strip pattern matches, then keep at most 5. -/
def filterClasses (classList : List String) : List String :=
  (classList.filter (fun c => !(stripClassTest c))).take 5

/- ===== DOM model =====

A document is modelled from the body element down.  Each element carries
its tag name, its id property (the empty string when no id attribute is
set, as in the DOM), its classList, its full attribute list in document
order, its computed style, and its child nodes, which interleave text
nodes and element children in document order. -/

/-- The computed style fields the core reads.  opacity is the rational
number parseFloat returns for the computed opacity string. -/
structure ComputedStyle where
  display : String
  visibility : String
  opacity : Rat
deriving Repr, DecidableEq

mutual
inductive DomNode where
  | mk (tagName : String) (id : String) (classes : List String)
       (attrs : List (String × String)) (style : ComputedStyle)
       (kids : List DomChild) : DomNode
deriving Repr
inductive DomChild where
  | text (s : String) : DomChild
  | elem (e : DomNode) : DomChild
deriving Repr
end

def DomNode.tagName : DomNode → String
  | .mk t _ _ _ _ _ => t

def DomNode.id : DomNode → String
  | .mk _ i _ _ _ _ => i

def DomNode.classes : DomNode → List String
  | .mk _ _ c _ _ _ => c

def DomNode.attrs : DomNode → List (String × String)
  | .mk _ _ _ a _ _ => a

def DomNode.style : DomNode → ComputedStyle
  | .mk _ _ _ _ s _ => s

def DomNode.kids : DomNode → List DomChild
  | .mk _ _ _ _ _ k => k

/-- el.getAttribute(name): the first attribute with that name, none when
absent (DOM attributes have unique names). -/
def getAttr (el : DomNode) (name : String) : Option String :=
  el.attrs.lookup name

/-- Model of the JS truthiness test if (el.getAttribute(name)): both a
missing attribute (null) and an empty string are falsy. -/
def truthyAttr (el : DomNode) (name : String) : Option String :=
  match getAttr el name with
  | some v => if v = "" then none else some v
  | none => none

/-- el.children: the element children in order, text nodes excluded. -/
def elemChildren (el : DomNode) : List DomNode :=
  el.kids.filterMap (fun k =>
    match k with
    | .elem e => some e
    | .text _ => none)

mutual
/-- el.textContent: the concatenation of every descendant text node in
document order. -/
def textContent : DomNode → String
  | .mk _ _ _ _ _ ks => textContentKids ks
def textContentKids : List DomChild → String
  | [] => ""
  | .text s :: rest => s ++ textContentKids rest
  | .elem e :: rest => textContent e ++ textContentKids rest
end

/-- The strings of the direct text-node children of an element, in order. -/
def directTextParts : List DomChild → List String
  | [] => []
  | .text s :: rest => s :: directTextParts rest
  | .elem _ :: rest => directTextParts rest

/-- getDirectText from src/content/dom-serializer.ts: concatenate the
trimmed direct text nodes, then collapse whitespace runs and trim. -/
def getDirectText (el : DomNode) : String :=
  trimStr (collapseWs (String.join ((directTextParts el.kids).map trimStr)))

/-- isVisible from src/content/dom-serializer.ts. -/
def isVisible (el : DomNode) : Bool :=
  decide (el.style.display ≠ "none") &&
    decide (el.style.visibility ≠ "hidden") &&
    decide (el.style.opacity > 0)

/- ===== DOM serializer (src/content/dom-serializer.ts) ===== -/

/-- Constant DOM_MAX_DEPTH from src/shared/constants.ts. -/
def DOM_MAX_DEPTH : Nat := 10

/-- Constant DOM_MAX_CHILDREN from src/shared/constants.ts. -/
def DOM_MAX_CHILDREN : Nat := 20

/-- Constant DOM_MAX_TEXT_LENGTH from src/shared/constants.ts. -/
def DOM_MAX_TEXT_LENGTH : Nat := 50

/-- Constant SKIP_TAGS from src/shared/constants.ts. -/
def SKIP_TAGS : List String :=
  ["script", "style", "noscript", "svg", "path", "meta", "link", "br",
   "hr", "wbr", "template", "iframe"]

/-- SerializationOptions from src/content/dom-serializer.ts (the unused
focusKeywords field is omitted: serializeNode never reads it). -/
structure SerializationOptions where
  maxDepth : Nat
  maxChildren : Nat
  maxTextLength : Nat
  includeHidden : Bool
deriving Repr, DecidableEq

/-- DEFAULT_OPTIONS from src/content/dom-serializer.ts. -/
def DEFAULT_OPTIONS : SerializationOptions :=
  ⟨DOM_MAX_DEPTH, DOM_MAX_CHILDREN, DOM_MAX_TEXT_LENGTH, false⟩

/-- SerializedNode from src/shared/types.ts as used by the serializer.
Optional scalar fields are Option; the optional classes, dataAttrs and
children fields are lists, with the empty list standing for an absent
field (the source only ever assigns them nonempty values). -/
inductive SerializedNode where
  | mk (tag : String) (id : Option String) (classes : List String)
       (dataAttrs : List (String × String))
       (ariaLabel : Option String) (role : Option String)
       (href : Option String) (text : Option String)
       (children : List SerializedNode) : SerializedNode
deriving Repr

def SerializedNode.tag : SerializedNode → String
  | .mk t _ _ _ _ _ _ _ _ => t

def SerializedNode.children : SerializedNode → List SerializedNode
  | .mk _ _ _ _ _ _ _ _ cs => cs

mutual
/-- serializeNode from src/content/dom-serializer.ts.  Children are
handled exactly as the for-loop does: the first maxChildren element
children are considered, each serialized at depth + 1, null results
dropped. -/
def serializeNode : DomNode → Nat → SerializationOptions → Option SerializedNode
  | .mk tagName id classes attrs style ks, depth, options =>
    if depth > options.maxDepth then none
    else
      let tag := toLowerStr tagName
      if SKIP_TAGS.contains tag then none
      else if !options.includeHidden &&
          !(isVisible (.mk tagName id classes attrs style ks)) then none
      else
        let el : DomNode := .mk tagName id classes attrs style ks
        let idField := if id ≠ "" then some id else none
        let classesField := filterClasses classes
        let dataAttrsField :=
          (attrs.filter (fun a =>
            jsStartsWith a.1 "data-" && !(jsIncludes a.1 "reactid") &&
              !(jsIncludes a.1 "uuid") && !(jsIncludes a.1 "gtm"))).map
            (fun a => (a.1, a.2.take 30))
        let ariaField := (truthyAttr el "aria-label").map (fun v => v.take 50)
        let roleField := truthyAttr el "role"
        let hrefField :=
          if tag = "a" then
            match truthyAttr el "href" with
            | some h =>
              if jsStartsWith h "javascript:" then none else some (h.take 100)
            | none => none
          else none
        let textContentStr := getDirectText el
        let textField :=
          if textContentStr ≠ "" then some (textContentStr.take options.maxTextLength)
          else none
        let childrenField := serializeKids ks options.maxChildren (depth + 1) options
        some (.mk tag idField classesField dataAttrsField ariaField roleField
          hrefField textField childrenField)
/-- The child loop of serializeNode: walk the child nodes in order,
skipping text nodes; each element child consumes one unit of the
maxChildren budget whether or not its serialization returns null, and
null results are not pushed. -/
def serializeKids : List DomChild → Nat → Nat → SerializationOptions → List SerializedNode
  | [], _, _, _ => []
  | .text _ :: rest, budget, depth, options => serializeKids rest budget depth options
  | .elem _ :: _, 0, _, _ => []
  | .elem e :: rest, budget + 1, depth, options =>
    match serializeNode e depth options with
    | some n => n :: serializeKids rest budget depth options
    | none => serializeKids rest budget depth options
end

/-- The indentation prefix "  ".repeat(indent). -/
def indentPrefix (n : Nat) : String :=
  String.join (List.replicate n "  ")

mutual
/-- toCompactString from src/content/dom-serializer.ts: one line per
node, children indented one level deeper, empty parts filtered out. -/
def toCompactString : SerializedNode → Nat → String
  | .mk tag id classes dataAttrs ariaLabel role href text cs, indent =>
    let line :=
      indentPrefix indent ++ "<" ++ tag ++
        (match id with
         | some i => "#" ++ i
         | none => "") ++
        (if classes.isEmpty then "" else "." ++ String.intercalate "." classes) ++
        String.join (dataAttrs.map (fun kv => " " ++ kv.1 ++ "=\"" ++ kv.2 ++ "\"")) ++
        (match ariaLabel with
         | some v => " aria=\"" ++ v ++ "\""
         | none => "") ++
        (match role with
         | some v => " role=\"" ++ v ++ "\""
         | none => "") ++
        (match href with
         | some v => " href=\"" ++ v ++ "\""
         | none => "") ++
        ">" ++
        (match text with
         | some t => " \"" ++ t ++ "\""
         | none => "")
    String.intercalate "\n" ((line :: toCompactList cs (indent + 1)).filter (fun s => s ≠ ""))
def toCompactList : List SerializedNode → Nat → List String
  | [], _ => []
  | c :: cs, indent => toCompactString c indent :: toCompactList cs indent
end

/-- toCompactString applied to a possibly-null tree (null renders as ""). -/
def toCompactOpt : Option SerializedNode → String
  | none => ""
  | some n => toCompactString n 0

/-- serializeDOM from src/content/dom-serializer.ts: serialize the body
with the given options (the caller-side spread of partial options into
DEFAULT_OPTIONS is performed at each call site of this model). -/
def serializeDOM (body : DomNode) (options : SerializationOptions) : String :=
  toCompactOpt (serializeNode body 0 options)

/- ===== Relevance matcher (src/content/dom-serializer.ts) =====

Elements are identified by their position below the body: the list of
indices into successive element-children lists.  The tree walker of
findRelevantElements visits exactly the strict descendants of body in
document order, which is the preorder listing of these positions. -/

mutual
/-- Document-order positions of the strict descendants of a node. -/
def descPositions : DomNode → List (List Nat)
  | .mk _ _ _ _ _ ks => descPositionsKids ks 0
/-- Positions contributed by a child list, where i counts the element
children seen so far (text nodes do not advance the index). -/
def descPositionsKids : List DomChild → Nat → List (List Nat)
  | [], _ => []
  | .text _ :: rest, i => descPositionsKids rest i
  | .elem c :: rest, i =>
    ([i] :: (descPositions c).map (fun p => i :: p)) ++ descPositionsKids rest (i + 1)
end

/-- The element at a position below root, if the position is in range. -/
def nodeAt : DomNode → List Nat → Option DomNode
  | root, [] => some root
  | root, i :: rest =>
    match (elemChildren root).get? i with
    | some c => nodeAt c rest
    | none => none

/-- The tag#id segments along a position, from just below the body down
to the addressed element (getElementPath builds the same list by walking
parentElement pointers up to, and excluding, the body). -/
def pathSegs : DomNode → List Nat → List String
  | _, [] => []
  | root, i :: rest =>
    match (elemChildren root).get? i with
    | some c =>
      (toLowerStr c.tagName ++ (if c.id ≠ "" then "#" ++ c.id else "")) :: pathSegs c rest
    | none => []

/-- getElementPath from src/content/dom-serializer.ts; the body itself
has the empty path. -/
def getElementPath (body : DomNode) (pos : List Nat) : String :=
  String.intercalate "/" (pathSegs body pos)

/-- KEYWORD_SYNONYMS from src/content/dom-serializer.ts, in source order. -/
def KEYWORD_SYNONYMS : List (String × List String) :=
  [("shorts", ["short", "reel", "reels", "vertical-video", "vertical_video"]),
   ("sidebar", ["side", "rail", "aside", "complementary", "sidenav", "left-nav", "right-nav"]),
   ("ad", ["ads", "advertisement", "advertisements", "sponsored", "promo", "promotion", "banner"]),
   ("comment", ["comments", "replies", "reply", "discussion", "feedback"]),
   ("video", ["videos", "player", "stream", "media", "watch"]),
   ("header", ["nav", "navbar", "navigation", "topbar", "top-bar", "masthead"]),
   ("footer", ["bottom", "bottombar", "bottom-bar"]),
   ("popup", ["modal", "dialog", "overlay", "lightbox", "popover"]),
   ("button", ["btn", "cta", "action"]),
   ("menu", ["dropdown", "submenu", "menubar"]),
   ("notification", ["notifications", "alert", "alerts", "toast", "snackbar"]),
   ("search", ["searchbox", "searchbar", "search-box", "search-bar", "find"]),
   ("login", ["signin", "sign-in", "log-in", "auth", "authenticate"]),
   ("signup", ["register", "sign-up", "create-account", "join"]),
   ("profile", ["account", "user", "avatar", "settings"]),
   ("like", ["likes", "upvote", "thumbs-up", "heart", "favorite"]),
   ("share", ["sharing", "social", "repost", "retweet"]),
   ("subscribe", ["subscription", "follow", "following"]),
   ("chat", ["messenger", "message", "messages", "dm", "inbox"]),
   ("story", ["stories", "reel"]),
   ("feed", ["timeline", "stream", "home"]),
   ("trending", ["popular", "explore", "discover"]),
   ("recommended", ["suggestions", "recommended", "for-you", "foryou"])]

/-- Insert a string into a list unless already present (models adding to
a JS Set, which preserves insertion order). -/
def insertUniq (l : List String) (x : String) : List String :=
  if l.contains x then l else l ++ [x]

/-- expandKeywords from src/content/dom-serializer.ts: add each keyword,
its synonym list when it is a table key, and, for every table entry whose
synonym list contains it, the key and the full synonym list. -/
def expandKeywords (keywords : List String) : List String :=
  keywords.foldl (fun expanded kw =>
    let expanded := insertUniq expanded kw
    let expanded :=
      match KEYWORD_SYNONYMS.lookup kw with
      | some synonyms => synonyms.foldl insertUniq expanded
      | none => expanded
    KEYWORD_SYNONYMS.foldl (fun expanded kv =>
      if kv.2.contains kw then kv.2.foldl insertUniq (insertUniq expanded kv.1)
      else expanded) expanded) []

/-- The lowercase haystack findRelevantElements builds for one element:
text content, class attribute text (classes joined by spaces), id, tag
name, the four named attributes, and every data- attribute as
"name value", all joined with single spaces. -/
def elementHaystack (el : DomNode) : String :=
  String.intercalate " "
    ([toLowerStr (textContent el),
      toLowerStr (String.intercalate " " el.classes),
      toLowerStr el.id,
      toLowerStr el.tagName,
      toLowerStr ((getAttr el "aria-label").getD ""),
      toLowerStr ((getAttr el "role").getD ""),
      toLowerStr ((getAttr el "title").getD ""),
      toLowerStr ((getAttr el "placeholder").getD "")] ++
     ((el.attrs.filter (fun a => jsStartsWith a.1 "data-")).map
       (fun a => toLowerStr (a.1 ++ " " ++ a.2))))

/-- The keyword tokens of a hint: lowercase, split on whitespace, tokens
of length at most 2 dropped (this also drops the empty tokens a regex
split can produce). -/
def splitKeywords (hint : String) : List String :=
  (jsSplitWs (toLowerStr hint)).filter (fun k => k.length > 2)

/-- findRelevantElements from src/content/dom-serializer.ts, returning
the positions of the matched elements in document order.  A candidate is
skipped when its path extends the path of an element already matched. -/
def findRelevantElements (body : DomNode) (hint : String) : List (List Nat) :=
  let keywords := expandKeywords (splitKeywords hint)
  ((descPositions body).foldl (fun (acc : List (List Nat) × List String) pos =>
    match nodeAt body pos with
    | some el =>
      if keywords.any (fun kw => jsIncludes (elementHaystack el) kw) then
        let path := getElementPath body pos
        let isChild := acc.2.any (fun p => jsStartsWith path p)
        if !isChild then (acc.1 ++ [pos], acc.2 ++ [path]) else acc
      else acc
    | none => acc) ([], [])).1

/-- serializeFocused from src/content/dom-serializer.ts.  For up to 8
matches the context root is the parent, promoted to the grandparent when
that grandparent exists and is not the body.  The model is rooted at the
body, so the body itself has no parent here (in a browser the promotion
from a depth-1 match would reach the html element instead); context
roots whose path duplicates or nests within an already-serialized path
are skipped, and each context is rendered with depth 5 / children 15. -/
def serializeFocused (body : DomNode) (hint : String) : String :=
  let matched := findRelevantElements body hint
  let result := (matched.take 8).foldl
    (fun (acc : List String × List String) pos =>
      let q0 := pos.dropLast
      let q :=
        if q0.isEmpty then q0
        else
          match nodeAt body q0.dropLast with
          | some gp => if toLowerStr gp.tagName ≠ "body" then q0.dropLast else q0
          | none => q0
      let path := getElementPath body q
      if acc.2.contains path || acc.2.any (fun p => jsStartsWith path p) then acc
      else
        match nodeAt body q with
        | some contextRoot =>
          match serializeNode contextRoot 0
              { DEFAULT_OPTIONS with maxDepth := 5, maxChildren := 15 } with
          | some contextTree => (acc.1 ++ [toCompactString contextTree 0], acc.2 ++ [path])
          | none => acc
        | none => acc) ([], [])
  String.intercalate "\n---\n" result.1

/-- serializeForLLM from src/content/dom-serializer.ts. -/
def serializeForLLM (body : DomNode) (userRequest : String) : String :=
  let focused := serializeFocused body userRequest
  if focused.length > 500 then
    "## Relevant sections (matching \"" ++ userRequest ++ "\"):\n" ++ focused
  else
    let full := serializeDOM body DEFAULT_OPTIONS
    let maxLength := 8000
    if full.length > maxLength then
      "## Page structure (truncated):\n" ++ full.take maxLength ++ "\n...[truncated]"
    else
      "## Page structure:\n" ++ full

/- ===== Selector synthesizer (ElementPicker.buildSelector) ===== -/

/-- The query-string strip of an href: everything before the first
question mark (href.split with the question mark, piece 0). -/
def hrefPath (href : String) : String :=
  (jsSplitChar href '?').headD ""

/-- The last two path segments rejoined: path.split on slash, slice(-2),
join with slash (the whole list when it has fewer than two pieces). -/
def lastTwoPathSegments (path : String) : String :=
  let pieces := jsSplitChar path '/'
  String.intercalate "/" (pieces.drop (pieces.length - 2))

/-- The first stable data attribute: name starts with data- and does not
contain reactid or uuid, in document order (the picker, unlike the
serializer, does not exclude gtm). -/
def firstStableDataAttr (element : DomNode) : Option (String × String) :=
  element.attrs.find? (fun attr =>
    jsStartsWith attr.1 "data-" && !(jsIncludes attr.1 "reactid") &&
      !(jsIncludes attr.1 "uuid"))

/-- ElementPicker.buildSelector from the element-picker module: the
priority cascade id, data attribute, aria-label, role, up to two
non-generated classes, href pattern for anchors, bare tag name. -/
def buildSelector (element : DomNode) : String :=
  let tagName := toLowerStr element.tagName
  if element.id ≠ "" then "#" ++ element.id
  else
    match firstStableDataAttr element with
    | some attr => "[" ++ attr.1 ++ "=\"" ++ attr.2 ++ "\"]"
    | none =>
      match truthyAttr element "aria-label" with
      | some ariaLabel => "[aria-label=\"" ++ ariaLabel ++ "\"]"
      | none =>
        match truthyAttr element "role" with
        | some role => tagName ++ "[role=\"" ++ role ++ "\"]"
        | none =>
          let semanticClasses :=
            (element.classes.filter (fun c => !(isGeneratedClass c))).take 2
          if !semanticClasses.isEmpty then
            tagName ++ "." ++ String.intercalate "." semanticClasses
          else if tagName = "a" then
            match truthyAttr element "href" with
            | some href =>
              if jsStartsWith href "javascript:" then tagName
              else
                let path := hrefPath href
                if path.length < 50 then "a[href=\"" ++ path ++ "\"]"
                else "a[href*=\"" ++ lastTwoPathSegments path ++ "\"]"
            | none => tagName
          else tagName

/- ===== Rule validator (src/content/rule-validator.ts) =====

The DOM is abstracted behind the one interface the validator uses:
document.querySelectorAll either throws (malformed selector) or returns
the list of matched elements, of which the validator only reads the
computed display and visibility. -/

/-- Constant VALIDATION_INTERVAL_MS from src/shared/constants.ts. -/
def VALIDATION_INTERVAL_MS : Nat := 30000

/-- Constant VALIDATION_DEBOUNCE_MS from src/shared/constants.ts. -/
def VALIDATION_DEBOUNCE_MS : Nat := 1000

/-- ValidationResult from src/shared/types.ts; status is one of the
string literals valid, partial, invalid. -/
structure ValidationResult where
  ruleId : String
  selector : String
  status : String
  matchCount : Nat
  hiddenCount : Nat
deriving Repr, DecidableEq

/-- The outcome of document.querySelectorAll on one selector string:
either an exception (malformed selector) or the matched elements with
their computed styles. -/
inductive QueryOutcome where
  | thrown : QueryOutcome
  | found (elems : List ComputedStyle) : QueryOutcome
deriving Repr, DecidableEq

/-- A page, as the validator sees it. -/
def QueryDom := String → QueryOutcome

/-- The hidden test of validateSelector: computed display none or
visibility hidden. -/
def isHiddenStyle (style : ComputedStyle) : Bool :=
  decide (style.display = "none") || decide (style.visibility = "hidden")

/-- RuleValidator.validateSelector from src/content/rule-validator.ts.
The catch branch of the source is the thrown case: the call never
propagates an exception. -/
def validateSelector (dom : QueryDom) (ruleId selector : String) : ValidationResult :=
  match dom selector with
  | .thrown => ⟨ruleId, selector, "invalid", 0, 0⟩
  | .found elements =>
    let matchCount := elements.length
    if matchCount = 0 then ⟨ruleId, selector, "invalid", 0, 0⟩
    else
      let hiddenCount := (elements.filter isHiddenStyle).length
      if hiddenCount = matchCount then ⟨ruleId, selector, "valid", matchCount, hiddenCount⟩
      else if hiddenCount > 0 then ⟨ruleId, selector, "partial", matchCount, hiddenCount⟩
      else ⟨ruleId, selector, "invalid", matchCount, hiddenCount⟩

/-- One update of the lastValidation JS Map: replace the value when the
key is present, append otherwise (Map iteration is insertion order). -/
def mapSet (m : List (String × Bool)) (k : String) (v : Bool) : List (String × Bool) :=
  if m.any (fun kv => kv.1 = k) then
    m.map (fun kv => if kv.1 = k then (k, v) else kv)
  else m ++ [(k, v)]

/-- The inner selector loop of RuleValidator.validateAll: validate each
selector in order, record its validity under the key ruleId:selector,
and accumulate whether any selector was valid (the wasValid comparison
in the source only drives a debug log and has no effect on state). -/
def validateSelectors (dom : QueryDom) (ruleId : String) :
    List String → List (String × Bool) → Bool × List (String × Bool)
  | [], lastValidation => (false, lastValidation)
  | selector :: rest, lastValidation =>
    let result := validateSelector dom ruleId selector
    let key := ruleId ++ ":" ++ selector
    let isValid := decide (result.status = "valid")
    let lastValidation1 := mapSet lastValidation key isValid
    let (restValid, lastValidation2) := validateSelectors dom ruleId rest lastValidation1
    (isValid || restValid, lastValidation2)

/-- The outer rule loop of RuleValidator.validateAll: a rule id is pushed
onto the failure list when no selector was valid and the lastValidation
map is nonempty at that point. -/
def validateRules (dom : QueryDom) :
    List (String × List String) → List (String × Bool) → List String × List (String × Bool)
  | [], lastValidation => ([], lastValidation)
  | (ruleId, selectors) :: rest, lastValidation =>
    let (ruleValid, lastValidation1) := validateSelectors dom ruleId selectors lastValidation
    let (failures, lastValidation2) := validateRules dom rest lastValidation1
    (if !ruleValid && decide (lastValidation1.length > 0) then ruleId :: failures
     else failures, lastValidation2)

/-- RuleValidator.validateAll from src/content/rule-validator.ts:
the failure list and the updated lastValidation map of one pass over the
tracked ruleSelectors map (association list in insertion order). -/
def validateAll (dom : QueryDom) (ruleSelectors : List (String × List String))
    (lastValidation : List (String × Bool)) : List String × List (String × Bool) :=
  validateRules dom ruleSelectors lastValidation

/-- Deduplicate preserving first occurrence (the spread of new Set(...)). -/
def dedupe (l : List String) : List String :=
  l.foldl insertUniq []

/-- The failure report validateAll dispatches: sent only when the failure
list is nonempty, carrying the domain, the deduplicated failed rule ids
and the page url; dispatch failures are swallowed by the source. -/
def failureReport (dom : QueryDom) (ruleSelectors : List (String × List String))
    (lastValidation : List (String × Bool)) (domain url : String) :
    Option (String × List String × String) :=
  let failures := (validateAll dom ruleSelectors lastValidation).1
  if failures.length > 0 then some (domain, dedupe failures, url) else none

/- ===== Mutation-observer debounce (RuleValidator.setupObserver) =====

Time is in milliseconds.  An observer run is the list of observer
callback invocations (time, mutation batch) in strictly increasing time
order.  Each invocation clears any pending debounce timer and arms a new
one for its own batch, to fire VALIDATION_DEBOUNCE_MS later; a timer
fires unless the next invocation arrives strictly before its fire time
(a fired timer is immune to the later clearTimeout). -/

/-- One MutationRecord, reduced to the two fields the observer callback
reads. -/
structure MutationRec where
  type : String
  attributeName : Option String
deriving Repr, DecidableEq

/-- The relevance test of the debounce callback: a childList change or a
class/style attribute change. -/
def isRelevantMutation (m : MutationRec) : Bool :=
  decide (m.type = "childList") ||
    (decide (m.type = "attributes") &&
      (decide (m.attributeName = some "class") ||
        decide (m.attributeName = some "style")))

/-- mutations.some(...) over a batch. -/
def relevantChange (mutations : List MutationRec) : Bool :=
  mutations.any isRelevantMutation

/-- The debounce timers that actually fire during an observer run, as
(fire time, batch) pairs: the timer armed by an invocation survives iff
no further invocation arrives before its fire time. -/
def debounceRun : List (Nat × List MutationRec) → List (Nat × List MutationRec)
  | [] => []
  | (t, batch) :: rest =>
    match rest with
    | [] => [(t + VALIDATION_DEBOUNCE_MS, batch)]
    | (tNext, _) :: _ =>
      (if t + VALIDATION_DEBOUNCE_MS ≤ tNext then [(t + VALIDATION_DEBOUNCE_MS, batch)]
       else []) ++ debounceRun rest

/-- The times at which the observer triggers a validation pass: a fired
timer runs validateAll iff its captured batch contains a relevant
mutation. -/
def observerValidationTimes (events : List (Nat × List MutationRec)) : List Nat :=
  ((debounceRun events).filter (fun fb => relevantChange fb.2)).map (fun fb => fb.1)

/- ===== Persisted rule storage (src/shared/storage.ts) =====

The storage schema is modelled as an association list from domain names
to domain entries, mirroring the string-keyed domains object; key
uniqueness (a JS object cannot hold duplicate keys) is a hypothesis of
the theorems that need it.  Rule statuses are the string literals of the
source; previousStatus is an Option, none standing for undefined.  The
chatMessages, ruleName and selectorStrategies fields are not read by any
modelled operation and are omitted. -/

/-- CSSRule from src/shared/types.ts, restricted to the fields the
modelled operations read or write. -/
structure CSSRule where
  id : String
  userRequest : String
  generatedCSS : String
  selectors : List String
  enabled : Bool
  status : String
  previousStatus : Option String
  failureCount : Nat
  confidence : Rat
  createdAt : Nat
  updatedAt : Nat
  lastValidated : Option Nat
deriving Repr, DecidableEq

/-- DomainRules from src/shared/types.ts. -/
structure DomainRules where
  domain : String
  rules : List CSSRule
  lastAccessed : Nat
deriving Repr, DecidableEq

/-- The domains part of StorageSchema (settings are passed separately to
the operations that read them). -/
structure StorageSchema where
  domains : List (String × DomainRules)
deriving Repr, DecidableEq

/-- getRulesForDomain from src/shared/storage.ts. -/
def getRulesForDomain (schema : StorageSchema) (domain : String) : List CSSRule :=
  match schema.domains.lookup domain with
  | some d => d.rules
  | none => []

/-- getRule from src/shared/storage.ts. -/
def getRule (schema : StorageSchema) (domain ruleId : String) : Option CSSRule :=
  (getRulesForDomain schema domain).find? (fun r => r.id = ruleId)

/-- The rules[ruleIndex] replacement of updateRule: the first rule with
the given id is replaced by its update spread with a fresh updatedAt;
later duplicates (impossible for UUID ids) are untouched, as with
findIndex. -/
def updateRuleAux : List CSSRule → String → (CSSRule → CSSRule) → Nat → List CSSRule
  | [], _, _, _ => []
  | r :: rest, ruleId, updates, now =>
    if r.id = ruleId then { updates r with updatedAt := now } :: rest
    else r :: updateRuleAux rest ruleId updates now

/-- updateRule from src/shared/storage.ts.  The updates argument is the
spread of the partial-update object over a rule; when the domain entry or
the rule is missing, nothing is written and the schema is returned
unchanged. -/
def updateRule (schema : StorageSchema) (domain ruleId : String)
    (updates : CSSRule → CSSRule) (now : Nat) : StorageSchema :=
  match schema.domains.lookup domain with
  | none => schema
  | some entry =>
    if entry.rules.any (fun r => r.id = ruleId) then
      ⟨schema.domains.map (fun kv =>
        if kv.1 = domain then
          (kv.1, { kv.2 with rules := updateRuleAux kv.2.rules ruleId updates now })
        else kv)⟩
    else schema

/-- deleteRule from src/shared/storage.ts: filter the rule out of its
domain entry and delete the entry when its rule list becomes empty;
a missing domain entry is left alone. -/
def deleteRule (schema : StorageSchema) (domain ruleId : String) : StorageSchema :=
  match schema.domains.lookup domain with
  | none => schema
  | some entry =>
    let newRules := entry.rules.filter (fun r => r.id ≠ ruleId)
    if newRules.length = 0 then
      ⟨schema.domains.filter (fun kv => kv.1 ≠ domain)⟩
    else
      ⟨schema.domains.map (fun kv =>
        if kv.1 = domain then (kv.1, { kv.2 with rules := newRules }) else kv)⟩

/-- The per-rule step of migrateWarningStatus: a historical warning
status becomes active, every other status is preserved. -/
def migrateRule (r : CSSRule) : CSSRule :=
  if r.status = "warning" then { r with status := "active" } else r

/-- migrateWarningStatus from src/shared/storage.ts (the source writes
the schema back only when some rule changed; the resulting contents are
the same either way). -/
def migrateWarningStatus (schema : StorageSchema) : StorageSchema :=
  ⟨schema.domains.map (fun kv => (kv.1, { kv.2 with rules := kv.2.rules.map migrateRule }))⟩

/- ===== Failure classifier (service-worker handleValidationFailure) ===== -/

/-- Constant WARNING_THRESHOLD from src/shared/constants.ts. -/
def WARNING_THRESHOLD : Nat := 1

/-- Constant BROKEN_THRESHOLD from src/shared/constants.ts. -/
def BROKEN_THRESHOLD : Nat := 3

/-- The status computation of handleValidationFailure for one reported
rule: increment the failure count, then broken at BROKEN_THRESHOLD,
warning at WARNING_THRESHOLD, otherwise the previous status. -/
def failureStatus (rule : CSSRule) : String :=
  let failureCount := rule.failureCount + 1
  if failureCount ≥ BROKEN_THRESHOLD then "broken"
  else if failureCount ≥ WARNING_THRESHOLD then "warning"
  else rule.status

/-- One iteration of the handleValidationFailure loop: look the rule up
(skipping missing ids), persist the incremented failureCount and the
recomputed status, and emit a notification for the rule iff notifications
are enabled and the rule transitioned into broken. -/
def processFailureId (schema : StorageSchema) (domain : String)
    (notifyOnFailure : Bool) (ruleId : String) (now : Nat) :
    StorageSchema × Option String :=
  match getRule schema domain ruleId with
  | none => (schema, none)
  | some rule =>
    let failureCount := rule.failureCount + 1
    let status := failureStatus rule
    let schema2 := updateRule schema domain ruleId
      (fun r => { r with failureCount := failureCount, status := status }) now
    (schema2,
     if notifyOnFailure && decide (status = "broken") && decide (rule.status ≠ "broken")
     then some ruleId else none)

/-- handleValidationFailure from src/background/service-worker.ts: fold
the per-rule step over the reported rule ids, collecting the notified
ids in order. -/
def handleValidationFailure (schema : StorageSchema) (domain : String)
    (failedRuleIds : List String) (notifyOnFailure : Bool) (now : Nat) :
    StorageSchema × List String :=
  failedRuleIds.foldl (fun acc ruleId =>
    let step := processFailureId acc.1 domain notifyOnFailure ruleId now
    (step.1,
     match step.2 with
     | some i => acc.2 ++ [i]
     | none => acc.2)) (schema, [])

/- ===== Rule toggle (options page handleToggleRule) ===== -/

/-- handleToggleRule from the options page, as the update it applies to
the current rule (the UPDATE_RULE message then spreads this update over
the stored rule, additionally refreshing updatedAt).  Re-enabling
restores previousStatus (defaulting to active, as the JS or-fallback on
null/undefined does) and clears it; disabling stores the current status,
or keeps the remembered one when the rule is somehow already disabled. -/
def handleToggleRule (currentRule : CSSRule) (enabled : Bool) : CSSRule :=
  if enabled then
    let status := currentRule.previousStatus.getD "active"
    { currentRule with enabled := true, status := status, previousStatus := none }
  else
    let prev :=
      if currentRule.status = "disabled" then currentRule.previousStatus.getD "active"
      else currentRule.status
    { currentRule with
        enabled := false, status := "disabled", previousStatus := some prev }

/- ===== Auxiliary observables used by the theorems ===== -/

mutual
/-- Height of a serialized tree (a leaf has height 1). -/
def snHeight : SerializedNode → Nat
  | .mk _ _ _ _ _ _ _ _ cs => 1 + snHeightList cs
/-- Maximum height over a child list (0 for no children). -/
def snHeightList : List SerializedNode → Nat
  | [] => 0
  | c :: cs => max (snHeight c) (snHeightList cs)
end

mutual
/-- Every node of a serialized tree has at most k children. -/
def snChildBounded (k : Nat) : SerializedNode → Bool
  | .mk _ _ _ _ _ _ _ _ cs => decide (cs.length ≤ k) && snChildBoundedList k cs
/-- snChildBounded over a child list. -/
def snChildBoundedList (k : Nat) : List SerializedNode → Bool
  | [] => true
  | c :: cs => snChildBounded k c && snChildBoundedList k cs
end

/-- An observer run lies within one debounce window: invocation times are
strictly increasing and each consecutive gap is below
VALIDATION_DEBOUNCE_MS, so every timer but the last is cancelled before
it can fire. -/
def withinOneWindow : List (Nat × List MutationRec) → Bool
  | [] => true
  | [_] => true
  | a :: b :: rest =>
    decide (a.1 < b.1) && decide (b.1 < a.1 + VALIDATION_DEBOUNCE_MS) &&
      withinOneWindow (b :: rest)

/- ===================== Theorems ===================== -/

/-- Claim C1: validateSelector classifies every selector in one pass:
a thrown query (malformed selector) yields invalid with matchCount 0 and
hiddenCount 0 without propagating the exception (the embedding is a
total function); zero matches yield invalid with matchCount 0; n > 0
matches all hidden yield valid; some but not all hidden yield partial;
matches with none hidden yield invalid. -/
theorem C1_validateSelector_classification (dom : QueryDom) (ruleId selector : String) :
    (dom selector = .thrown →
      validateSelector dom ruleId selector = ⟨ruleId, selector, "invalid", 0, 0⟩) ∧
    (∀ elems, dom selector = .found elems →
      (elems = [] →
        validateSelector dom ruleId selector = ⟨ruleId, selector, "invalid", 0, 0⟩) ∧
      (elems ≠ [] → (∀ st ∈ elems, isHiddenStyle st = true) →
        validateSelector dom ruleId selector =
          ⟨ruleId, selector, "valid", elems.length, elems.length⟩) ∧
      ((∃ st ∈ elems, isHiddenStyle st = true) →
        (∃ st ∈ elems, isHiddenStyle st = false) →
        (validateSelector dom ruleId selector).status = "partial") ∧
      (elems ≠ [] → (∀ st ∈ elems, isHiddenStyle st = false) →
        validateSelector dom ruleId selector =
          ⟨ruleId, selector, "invalid", elems.length, 0⟩)) := by
  constructor
  · intro h
    simp [validateSelector, h]
  · intro elems h
    refine ⟨?_, ?_, ?_, ?_⟩
    · intro he
      subst he
      simp [validateSelector, h]
    · intro hne hall
      have hf : elems.filter isHiddenStyle = elems := List.filter_eq_self.mpr hall
      have hlen : elems.length ≠ 0 := by
        simpa [List.length_eq_zero] using hne
      simp [validateSelector, h, hlen, hf]
    · intro hex hnex
      obtain ⟨x, hx, hpx⟩ := hex
      obtain ⟨y, hy, hpy⟩ := hnex
      have hlen : elems.length ≠ 0 := by
        intro h0
        rw [List.length_eq_zero] at h0
        subst h0
        exact absurd hx (List.not_mem_nil x)
      have hpos : 0 < (elems.filter isHiddenStyle).length := by
        have hmem : x ∈ elems.filter isHiddenStyle := List.mem_filter.mpr ⟨hx, hpx⟩
        exact List.length_pos.mpr (List.ne_nil_of_mem hmem)
      have hlt : (elems.filter isHiddenStyle).length < elems.length :=
        List.length_filter_lt_length_iff_exists.mpr ⟨y, hy, by simp [hpy]⟩
      have hne2 : (elems.filter isHiddenStyle).length ≠ elems.length := Nat.ne_of_lt hlt
      simp [validateSelector, h, hlen, hne2, hpos]
    · intro hne hnone
      have hf : elems.filter isHiddenStyle = [] := by
        rw [List.filter_eq_nil_iff]
        intro a ha
        simp [hnone a ha]
      have hlen : elems.length ≠ 0 := by
        simpa [List.length_eq_zero] using hne
      have hne2 : (0 : Nat) ≠ elems.length := fun h0 => hlen h0.symm
      simp [validateSelector, h, hlen, hf, hne2]

/-- Witness for C1 at a concrete page: the selector hitting one hidden
element is valid, and a malformed selector yields the zero result. -/
theorem C1_witness :
    (validateSelector
        (fun s => if s = "#a" then QueryOutcome.found [⟨"none", "visible", 1⟩]
                  else QueryOutcome.thrown) "r" "#a").status = "valid" ∧
    validateSelector
        (fun s => if s = "#a" then QueryOutcome.found [⟨"none", "visible", 1⟩]
                  else QueryOutcome.thrown) "r" "p ~~ q" =
      ⟨"r", "p ~~ q", "invalid", 0, 0⟩ := by
  constructor
  · have h := ((C1_validateSelector_classification
      (fun s => if s = "#a" then QueryOutcome.found [⟨"none", "visible", 1⟩]
                else QueryOutcome.thrown) "r" "#a").2
      [⟨"none", "visible", 1⟩] (by decide)).2.1 (by decide) (by decide)
    rw [h]
  · exact (C1_validateSelector_classification _ "r" "p ~~ q").1 (by decide)

/-- Counterexample to claim C8: the serializer strips the class
sc-bdnylx (STRIP_CLASS_PATTERNS sc- entry), but the selector
synthesizer does not consider it generated (its styled-components
pattern requires a second dash-separated part), so the two classifiers
are not the same predicate. -/
theorem C8_counterexample :
    stripClassTest "sc-bdnylx" = true ∧ isGeneratedClass "sc-bdnylx" = false := by
  decide

/-- Claim C8 as amended: the two generated-class classifiers agree on
the shared pattern families (css- hashes, underscore hashes, numeric
jsx- names) and on typical human class names, but they are different
predicates, disagreeing on dashless styled-components names, two-part
styled-components names, emotion- and mui- prefixes, alphabetic jsx-
names, two-digit minified names, and CSS-module names. -/
theorem C8_amended_classifiers_differ :
    (stripClassTest "css-1a2b3c" = true ∧ isGeneratedClass "css-1a2b3c" = true) ∧
    (stripClassTest "_abcde1" = true ∧ isGeneratedClass "_abcde1" = true) ∧
    (stripClassTest "jsx-123" = true ∧ isGeneratedClass "jsx-123" = true) ∧
    (stripClassTest "sidebar" = false ∧ isGeneratedClass "sidebar" = false) ∧
    (stripClassTest "nav-primary" = false ∧ isGeneratedClass "nav-primary" = false) ∧
    (stripClassTest "btn-cta" = false ∧ isGeneratedClass "btn-cta" = false) ∧
    (stripClassTest "sc-bdnylx" = true ∧ isGeneratedClass "sc-bdnylx" = false) ∧
    (stripClassTest "sc-button-a1b2" = false ∧ isGeneratedClass "sc-button-a1b2" = true) ∧
    (stripClassTest "emotion-x" = true ∧ isGeneratedClass "emotion-x" = false) ∧
    (stripClassTest "mui-selected" = true ∧ isGeneratedClass "mui-selected" = false) ∧
    (stripClassTest "jsx-abc" = false ∧ isGeneratedClass "jsx-abc" = true) ∧
    (stripClassTest "a12" = true ∧ isGeneratedClass "a12" = false) ∧
    (stripClassTest "foo__bar-baz1" = false ∧ isGeneratedClass "foo__bar-baz1" = true) := by
  decide

/-- Claim C9: for a rule whose status is active or broken, toggling off
records that status as previousStatus while setting status disabled, and
toggling back on restores exactly that status and clears previousStatus,
so a disable/enable round trip preserves the status. -/
theorem C9_toggle_round_trip (r : CSSRule)
    (h : r.status = "active" ∨ r.status = "broken") :
    (handleToggleRule r false).status = "disabled" ∧
    (handleToggleRule r false).previousStatus = some r.status ∧
    (handleToggleRule (handleToggleRule r false) true).status = r.status ∧
    (handleToggleRule (handleToggleRule r false) true).previousStatus = none := by
  have hne : r.status ≠ "disabled" := by
    rcases h with h | h <;> simp [h]
  simp [handleToggleRule, hne]

/-- Witness for C9 on a concrete broken rule. -/
theorem C9_witness :
    (handleToggleRule (handleToggleRule
        ⟨"r1", "hide ads", ".ad-css", [".ad"], true, "broken", none, 2, 1, 0, 0, none⟩
        false) true).status = "broken" ∧
    (handleToggleRule
        ⟨"r1", "hide ads", ".ad-css", [".ad"], true, "broken", none, 2, 1, 0, 0, none⟩
        false).status = "disabled" := by
  exact ⟨(C9_toggle_round_trip _ (Or.inr rfl)).2.2.1,
         (C9_toggle_round_trip _ (Or.inr rfl)).1⟩

/-- Counterexample to claim C3: processing a validation-failure report
for an active rule with failure count 0 persists the status warning,
which lies outside the set of active, broken and disabled (the warning
threshold is 1, so the incremented count 1 already reaches it while
staying below the broken threshold 3). -/
theorem C3_counterexample :
    ((getRule
        (handleValidationFailure
          ⟨[("example.com", ⟨"example.com",
              [⟨"r1", "hide the ads", ".ad-css", [".ad"], true,
                "active", none, 0, 1, 1, 1, none⟩], 1⟩)]⟩
          "example.com" ["r1"] true 5).1
        "example.com" "r1").map CSSRule.status = some "warning") ∧
    "warning" ∉ (["active", "broken", "disabled"] : List String) := by
  decide

/-- Claim C3 as amended: the load-time migration does map every status
drawn from the historical set into the active/broken/disabled set, and
after migration no persisted rule carries warning; but the
validation-failure handler reassigns statuses only from the warning and
broken pair: it writes warning (outside the set) exactly when the
incremented failure count is below BROKEN_THRESHOLD, and broken
otherwise. -/
theorem C3_amended_status_policy :
    (∀ r : CSSRule,
        r.status ∈ (["active", "broken", "disabled", "warning"] : List String) →
        (migrateRule r).status ∈ (["active", "broken", "disabled"] : List String)) ∧
    (∀ schema : StorageSchema, ∀ kv ∈ (migrateWarningStatus schema).domains,
        ∀ r ∈ kv.2.rules, r.status ≠ "warning") ∧
    (∀ rule : CSSRule, rule.failureCount + 1 < BROKEN_THRESHOLD →
        failureStatus rule = "warning") ∧
    (∀ rule : CSSRule, rule.failureCount + 1 ≥ BROKEN_THRESHOLD →
        failureStatus rule = "broken") := by
  refine ⟨?_, ?_, ?_, ?_⟩
  · intro r h
    by_cases hw : r.status = "warning"
    · simp [migrateRule, hw]
    · simp only [migrateRule, hw, if_false]
      simpa [hw] using h
  · intro schema kv hkv r hr
    simp only [migrateWarningStatus, List.mem_map] at hkv
    obtain ⟨kv0, _, rfl⟩ := hkv
    simp only [List.mem_map] at hr
    obtain ⟨r0, _, rfl⟩ := hr
    by_cases hw : r0.status = "warning"
    · simp [migrateRule, hw]
    · simp [migrateRule, hw]
  · intro rule h
    simp only [BROKEN_THRESHOLD] at h
    simp [failureStatus, BROKEN_THRESHOLD, WARNING_THRESHOLD]
    omega
  · intro rule h
    simp only [BROKEN_THRESHOLD] at h
    simp [failureStatus, BROKEN_THRESHOLD, h]

/-- Witness for the amended C3 at concrete rules: a warning rule
migrates into the set, a first failure lands on warning, a third lands
on broken. -/
theorem C3_amended_witness :
    (migrateRule
        ⟨"r1", "q", "c", [], true, "warning", none, 0, 1, 1, 1, none⟩).status ∈
      (["active", "broken", "disabled"] : List String) ∧
    failureStatus ⟨"r1", "q", "c", [], true, "active", none, 0, 1, 1, 1, none⟩ = "warning" ∧
    failureStatus ⟨"r1", "q", "c", [], true, "active", none, 2, 1, 1, 1, none⟩ = "broken" := by
  refine ⟨C3_amended_status_policy.1 _ (by decide),
    C3_amended_status_policy.2.2.1 _ (by decide),
    C3_amended_status_policy.2.2.2 _ (by decide)⟩

/-- Claim C4: within one debounce window (each observer invocation
arrives before the previous timer fires), only the final timer survives,
so the observer triggers at most one validation pass, exactly at the
last invocation time plus VALIDATION_DEBOUNCE_MS and only when the
surviving batch carries a childList or class/style attribute change,
which in particular requires some batch with a relevant change. -/
theorem C4_debounce_single_pass (events : List (Nat × List MutationRec))
    (hne : events ≠ []) (hw : withinOneWindow events = true) :
    debounceRun events =
      [((events.getLast hne).1 + VALIDATION_DEBOUNCE_MS, (events.getLast hne).2)] ∧
    observerValidationTimes events =
      (if relevantChange (events.getLast hne).2 then
        [(events.getLast hne).1 + VALIDATION_DEBOUNCE_MS] else []) ∧
    (observerValidationTimes events).length ≤ 1 ∧
    (observerValidationTimes events ≠ [] →
      ∃ e ∈ events, relevantChange e.2 = true) := by
  induction events with
  | nil => exact absurd rfl hne
  | cons a rest ih =>
    cases rest with
    | nil =>
      refine ⟨rfl, ?_, ?_, ?_⟩
      · simp [observerValidationTimes, debounceRun, List.getLast]
        by_cases hr : relevantChange a.2 <;> simp [hr, List.filter]
      · simp [observerValidationTimes, debounceRun, List.filter]
        by_cases hr : relevantChange a.2 <;> simp [hr]
      · intro hneq
        simp [observerValidationTimes, debounceRun, List.filter] at hneq
        by_cases hr : relevantChange a.2
        · exact ⟨a, List.mem_singleton.mpr rfl, hr⟩
        · simp [hr] at hneq
    | cons b rest2 =>
      have hw2 : withinOneWindow (b :: rest2) = true := by
        simp only [withinOneWindow, Bool.and_eq_true] at hw ⊢
        exact hw.2
      have hlt : b.1 < a.1 + VALIDATION_DEBOUNCE_MS := by
        simp only [withinOneWindow, Bool.and_eq_true, decide_eq_true_eq] at hw
        exact hw.1.2
      have hguard : ¬ (a.1 + VALIDATION_DEBOUNCE_MS ≤ b.1) := by omega
      have hrun : debounceRun (a :: b :: rest2) = debounceRun (b :: rest2) := by
        simp [debounceRun, hguard]
      have hlast1 : (a :: b :: rest2).getLast hne = (b :: rest2).getLast (by simp) :=
        List.getLast_cons _
      obtain ⟨ih1, ih2, ih3, ih4⟩ := ih (by simp) hw2
      refine ⟨?_, ?_, ?_, ?_⟩
      · rw [hrun, hlast1]; exact ih1
      · simp only [observerValidationTimes, hrun, hlast1]
        exact ih2
      · simp only [observerValidationTimes, hrun]
        exact ih3
      · intro hneq
        simp only [observerValidationTimes, hrun] at hneq
        obtain ⟨e, he, hrel⟩ := ih4 hneq
        exact ⟨e, List.mem_cons_of_mem a he, hrel⟩

/-- Witness for C4: ten childList mutation events within 200ms produce
exactly one validation pass, at the 1s debounce after the last event. -/
theorem C4_witness :
    observerValidationTimes
      [(0, [⟨"childList", none⟩]), (20, [⟨"childList", none⟩]),
       (40, [⟨"childList", none⟩]), (60, [⟨"childList", none⟩]),
       (80, [⟨"childList", none⟩]), (100, [⟨"childList", none⟩]),
       (120, [⟨"childList", none⟩]), (140, [⟨"childList", none⟩]),
       (160, [⟨"childList", none⟩]), (180, [⟨"childList", none⟩])] = [1180] ∧
    (observerValidationTimes
      [(0, [⟨"childList", none⟩]), (20, [⟨"childList", none⟩]),
       (40, [⟨"childList", none⟩]), (60, [⟨"childList", none⟩]),
       (80, [⟨"childList", none⟩]), (100, [⟨"childList", none⟩]),
       (120, [⟨"childList", none⟩]), (140, [⟨"childList", none⟩]),
       (160, [⟨"childList", none⟩]), (180, [⟨"childList", none⟩])]).length ≤ 1 := by
  have h := C4_debounce_single_pass
    [(0, [⟨"childList", none⟩]), (20, [⟨"childList", none⟩]),
     (40, [⟨"childList", none⟩]), (60, [⟨"childList", none⟩]),
     (80, [⟨"childList", none⟩]), (100, [⟨"childList", none⟩]),
     (120, [⟨"childList", none⟩]), (140, [⟨"childList", none⟩]),
     (160, [⟨"childList", none⟩]), (180, [⟨"childList", none⟩])]
    (by decide) (by decide)
  refine ⟨?_, h.2.2.1⟩
  rw [h.2.1]
  decide

/-- mapSet never shrinks the lastValidation map. -/
theorem mapSet_length_ge (m : List (String × Bool)) (k : String) (v : Bool) :
    m.length ≤ (mapSet m k v).length := by
  unfold mapSet
  split
  · simp
  · simp

/-- mapSet leaves the lastValidation map nonempty. -/
theorem mapSet_length_pos (m : List (String × Bool)) (k : String) (v : Bool) :
    0 < (mapSet m k v).length := by
  unfold mapSet
  split
  · next h =>
    cases m with
    | nil => simp at h
    | cons a t => simp
  · simp

/-- Unfolding equation for the selector loop on a nonempty list. -/
theorem validateSelectors_cons (dom : QueryDom) (ruleId s : String)
    (rest : List String) (lv : List (String × Bool)) :
    validateSelectors dom ruleId (s :: rest) lv =
      ((decide ((validateSelector dom ruleId s).status = "valid") ||
          (validateSelectors dom ruleId rest
            (mapSet lv (ruleId ++ ":" ++ s)
              (decide ((validateSelector dom ruleId s).status = "valid")))).1),
       (validateSelectors dom ruleId rest
          (mapSet lv (ruleId ++ ":" ++ s)
            (decide ((validateSelector dom ruleId s).status = "valid")))).2) := by
  simp only [validateSelectors]

/-- The selector loop reports a rule valid iff some selector validates. -/
theorem validateSelectors_fst (dom : QueryDom) (ruleId : String) :
    ∀ (sels : List String) (lv : List (String × Bool)),
    (validateSelectors dom ruleId sels lv).1 =
      sels.any (fun s => decide ((validateSelector dom ruleId s).status = "valid")) := by
  intro sels
  induction sels with
  | nil => intro lv; simp [validateSelectors]
  | cons s rest ih =>
    intro lv
    rw [validateSelectors_cons]
    simp [ih]

/-- The selector loop never shrinks the lastValidation map. -/
theorem validateSelectors_len (dom : QueryDom) (ruleId : String) :
    ∀ (sels : List String) (lv : List (String × Bool)),
    lv.length ≤ (validateSelectors dom ruleId sels lv).2.length := by
  intro sels
  induction sels with
  | nil => intro lv; simp [validateSelectors]
  | cons s rest ih =>
    intro lv
    rw [validateSelectors_cons]
    exact le_trans (mapSet_length_ge lv _ _) (ih _)

/-- After processing at least one selector the lastValidation map is
nonempty. -/
theorem validateSelectors_len_pos (dom : QueryDom) (ruleId s : String)
    (rest : List String) (lv : List (String × Bool)) :
    0 < (validateSelectors dom ruleId (s :: rest) lv).2.length := by
  rw [validateSelectors_cons]
  exact lt_of_lt_of_le (mapSet_length_pos lv _ _) (validateSelectors_len dom ruleId rest _)

/-- Unfolding equation for the rule loop on a nonempty list. -/
theorem validateRules_cons (dom : QueryDom) (ruleId0 : String)
    (sels0 : List String) (rest : List (String × List String))
    (lv : List (String × Bool)) :
    validateRules dom ((ruleId0, sels0) :: rest) lv =
      ((if !(validateSelectors dom ruleId0 sels0 lv).1 &&
            decide ((validateSelectors dom ruleId0 sels0 lv).2.length > 0) then
          ruleId0 :: (validateRules dom rest (validateSelectors dom ruleId0 sels0 lv).2).1
        else (validateRules dom rest (validateSelectors dom ruleId0 sels0 lv).2).1),
       (validateRules dom rest (validateSelectors dom ruleId0 sels0 lv).2).2) := by
  simp only [validateRules]

/-- Every reported failure id is a tracked rule id. -/
theorem validateRules_fst_subset (dom : QueryDom) :
    ∀ (rules : List (String × List String)) (lv : List (String × Bool)) (r : String),
    r ∈ (validateRules dom rules lv).1 → r ∈ rules.map Prod.fst := by
  intro rules
  induction rules with
  | nil => intro lv r h; simp [validateRules] at h
  | cons p rest ih =>
    intro lv r h
    obtain ⟨rid0, sels0⟩ := p
    rw [validateRules_cons] at h
    simp only [List.map_cons, List.mem_cons]
    split at h
    · rcases List.mem_cons.mp h with h1 | h1
      · exact Or.inl h1
      · exact Or.inr (ih _ _ h1)
    · exact Or.inr (ih _ _ h)

/-- Claim C2 as amended: in every validation pass over a tracked rule
map with distinct rule ids, a rule with some valid selector is never in
the failure set, and a rule with a nonempty selector list none of whose
selectors is valid is always in the failure set.  (The nonemptiness
proviso is forced by the lastValidation-size guard in the source: an
empty-selector rule processed while the map is still empty is omitted,
see the counterexample.) -/
theorem C2_thm (dom : QueryDom) :
    ∀ (ruleSelectors : List (String × List String)) (lastValidation : List (String × Bool)),
    (ruleSelectors.map Prod.fst).Nodup →
    ∀ ruleId selectors, (ruleId, selectors) ∈ ruleSelectors →
      ((∃ s ∈ selectors, (validateSelector dom ruleId s).status = "valid") →
        ruleId ∉ (validateAll dom ruleSelectors lastValidation).1) ∧
      (selectors ≠ [] →
        (∀ s ∈ selectors, (validateSelector dom ruleId s).status ≠ "valid") →
        ruleId ∈ (validateAll dom ruleSelectors lastValidation).1) := by
  intro rules
  induction rules with
  | nil =>
    intro lv _ ruleId selectors h
    simp at h
  | cons p rest ih =>
    intro lv hnd ruleId selectors hmem
    obtain ⟨rid0, sels0⟩ := p
    have hnd2 : (rest.map Prod.fst).Nodup := (List.nodup_cons.mp hnd).2
    have hrid0 : rid0 ∉ rest.map Prod.fst := (List.nodup_cons.mp hnd).1
    unfold validateAll
    rcases List.mem_cons.mp hmem with heq | htail
    · rw [Prod.mk.injEq] at heq
      obtain ⟨rfl, rfl⟩ := heq
      constructor
      · intro hex
        have hval : (validateSelectors dom ruleId selectors lv).1 = true := by
          rw [validateSelectors_fst]
          obtain ⟨s, hs, hstat⟩ := hex
          simp only [List.any_eq_true]
          exact ⟨s, hs, by simp [hstat]⟩
        rw [validateRules_cons]
        simp only [hval, Bool.not_true, Bool.false_and, if_false]
        intro hmem2
        exact hrid0 (validateRules_fst_subset dom rest _ _ hmem2)
      · intro hne hnone
        have hval : (validateSelectors dom ruleId selectors lv).1 = false := by
          rw [validateSelectors_fst]
          simp only [List.any_eq_false]
          intro s hs
          simp [hnone s hs]
        have hpos : (validateSelectors dom ruleId selectors lv).2.length > 0 := by
          cases selectors with
          | nil => exact absurd rfl hne
          | cons s ss => exact validateSelectors_len_pos dom ruleId s ss lv
        rw [validateRules_cons]
        simp [hval, hpos]
    · have hkey : ruleId ∈ rest.map Prod.fst :=
        List.mem_map.mpr ⟨(ruleId, selectors), htail, rfl⟩
      have hne0 : ruleId ≠ rid0 := fun h => hrid0 (h ▸ hkey)
      have ihh := ih (validateSelectors dom rid0 sels0 lv).2 hnd2 ruleId selectors htail
      unfold validateAll at ihh
      rw [validateRules_cons]
      constructor
      · intro hex
        have h1 := ihh.1 hex
        split
        · intro hmem2
          rcases List.mem_cons.mp hmem2 with h2 | h2
          · exact hne0 h2
          · exact h1 h2
        · exact h1
      · intro hne hnone
        have h1 := ihh.2 hne hnone
        split
        · exact List.mem_cons_of_mem _ h1
        · exact h1

/-- Counterexample to claim C2 as stated: on the first pass, a tracked
rule with an empty selector list has no valid selector, yet the failure
set of the pass is empty because the lastValidation-size guard
suppresses it. -/
theorem C2_counterexample :
    "r1" ∉ (validateAll (fun _ => QueryOutcome.found [])
      [("r1", ([] : List String))] []).1 := by
  decide

/-- Witness for the amended C2 on a concrete pass: the rule whose only
selector misses is reported, the rule with a hidden match is not. -/
theorem C2_witness :
    ("b" ∈ (validateAll
        (fun s => if s = "#hid" then QueryOutcome.found [⟨"none", "visible", 1⟩]
                  else QueryOutcome.found [])
        [("a", ["#hid"]), ("b", ["#miss"])] []).1) ∧
    ("a" ∉ (validateAll
        (fun s => if s = "#hid" then QueryOutcome.found [⟨"none", "visible", 1⟩]
                  else QueryOutcome.found [])
        [("a", ["#hid"]), ("b", ["#miss"])] []).1) := by
  constructor
  · exact (C2_thm
      (fun s => if s = "#hid" then QueryOutcome.found [⟨"none", "visible", 1⟩]
                else QueryOutcome.found [])
      [("a", ["#hid"]), ("b", ["#miss"])] [] (by decide) "b" ["#miss"]
      (by simp)).2 (by decide) (by decide)
  · exact (C2_thm
      (fun s => if s = "#hid" then QueryOutcome.found [⟨"none", "visible", 1⟩]
                else QueryOutcome.found [])
      [("a", ["#hid"]), ("b", ["#miss"])] [] (by decide) "a" ["#hid"]
      (by simp)).1 (by decide)

/-- A successful lookup pairs the key with an entry of the list. -/
theorem lookupDomains_mem :
    ∀ (l : List (String × DomainRules)) (d : String) (e : DomainRules),
    l.lookup d = some e → (d, e) ∈ l := by
  intro l
  induction l with
  | nil => intro d e h; simp [List.lookup] at h
  | cons kv rest ih =>
    intro d e h
    obtain ⟨k, b⟩ := kv
    by_cases hd : d = k
    · subst hd
      simp [List.lookup] at h
      simp [h]
    · have hbeq : (d == k) = false := beq_eq_false_iff_ne.mpr hd
      simp only [List.lookup, hbeq] at h
      exact List.mem_cons_of_mem _ (ih d e h)

/-- With distinct keys, the looked-up entry is the only one under its
key. -/
theorem lookupDomains_unique :
    ∀ (l : List (String × DomainRules)), (l.map Prod.fst).Nodup →
    ∀ (d : String) (e : DomainRules), l.lookup d = some e →
    ∀ kv ∈ l, kv.1 = d → kv = (d, e) := by
  intro l
  induction l with
  | nil => intro _ d e h; simp [List.lookup] at h
  | cons p rest ih =>
    intro hnd d e h kv hkv hk
    obtain ⟨k, b⟩ := p
    have hnd2 : (rest.map Prod.fst).Nodup := (List.nodup_cons.mp hnd).2
    have hnotin : k ∉ rest.map Prod.fst := (List.nodup_cons.mp hnd).1
    by_cases hd : d = k
    · subst hd
      simp only [List.lookup, beq_self_eq_true] at h
      rcases List.mem_cons.mp hkv with h1 | h1
      · rw [h1]
        simp only [Option.some.injEq] at h
        rw [h]
      · exfalso
        exact hnotin (hk ▸ List.mem_map.mpr ⟨kv, h1, rfl⟩)
    · have hbeq : (d == k) = false := beq_eq_false_iff_ne.mpr hd
      simp only [List.lookup, hbeq] at h
      rcases List.mem_cons.mp hkv with h1 | h1
      · exfalso
        rw [h1] at hk
        exact hd hk.symm
      · exact ih hnd2 d e h kv h1 hk

/-- Claim C10: when no rule with the given id exists under the domain
(including when the domain entry itself is absent), updateRule and
deleteRule leave the persisted contents unchanged: no domain entry is
created or removed, no rule is modified and no timestamp changes.  The
hypotheses are the representation invariants of the store: domain keys
are unique (a JS object) and no persisted domain entry has an empty rule
list (deleteRule removes emptied entries, saveRule only creates an entry
together with its first rule). -/
theorem C10_thm (schema : StorageSchema) (domain ruleId : String)
    (updates : CSSRule → CSSRule) (now : Nat)
    (hnd : (schema.domains.map Prod.fst).Nodup)
    (hinv : ∀ kv ∈ schema.domains, kv.2.rules ≠ [])
    (habs : ∀ r ∈ getRulesForDomain schema domain, r.id ≠ ruleId) :
    updateRule schema domain ruleId updates now = schema ∧
    deleteRule schema domain ruleId = schema := by
  constructor
  · unfold updateRule
    cases h : schema.domains.lookup domain with
    | none => rfl
    | some entry =>
      have hrules : getRulesForDomain schema domain = entry.rules := by
        simp [getRulesForDomain, h]
      have hany : (entry.rules.any (fun r => decide (r.id = ruleId))) = false := by
        simp only [List.any_eq_false]
        intro r hr
        simp [habs r (hrules ▸ hr)]
      simp [hany]
  · unfold deleteRule
    cases h : schema.domains.lookup domain with
    | none => rfl
    | some entry =>
      have hmem : (domain, entry) ∈ schema.domains := lookupDomains_mem _ _ _ h
      have hrules : getRulesForDomain schema domain = entry.rules := by
        simp [getRulesForDomain, h]
      have hfilter : entry.rules.filter (fun r => decide (r.id ≠ ruleId)) = entry.rules := by
        rw [List.filter_eq_self]
        intro r hr
        simp [habs r (hrules ▸ hr)]
      have hne : entry.rules ≠ [] := hinv (domain, entry) hmem
      have hlen : ¬ (entry.rules.length = 0) := by
        simpa [List.length_eq_zero] using hne
      have hmap : schema.domains.map (fun kv =>
          if kv.1 = domain then (kv.1, { kv.2 with rules := entry.rules }) else kv) =
          schema.domains := by
        have hcongr : ∀ kv ∈ schema.domains,
            (if kv.1 = domain then (kv.1, { kv.2 with rules := entry.rules }) else kv) =
              id kv := by
          intro kv hkv
          by_cases hk : kv.1 = domain
          · have hkv2 := lookupDomains_unique _ hnd _ _ h kv hkv hk
            rw [hkv2]
            simp
          · simp [hk]
        rw [List.map_congr_left hcongr, List.map_id]
      simp only [hfilter, hlen, if_false]
      rw [hmap]

/-- Witness for C10 on a concrete store: updating a missing rule id and
deleting under a missing domain both leave the store intact. -/
theorem C10_witness :
    (updateRule
        ⟨[("example.com", ⟨"example.com",
            [⟨"r1", "q", "c", [".x"], true, "active", none, 0, 1, 1, 1, none⟩], 1⟩)]⟩
        "example.com" "zzz" (fun r => { r with enabled := false }) 9 =
      ⟨[("example.com", ⟨"example.com",
          [⟨"r1", "q", "c", [".x"], true, "active", none, 0, 1, 1, 1, none⟩], 1⟩)]⟩) ∧
    (deleteRule
        ⟨[("example.com", ⟨"example.com",
            [⟨"r1", "q", "c", [".x"], true, "active", none, 0, 1, 1, 1, none⟩], 1⟩)]⟩
        "other.org" "r1" =
      ⟨[("example.com", ⟨"example.com",
          [⟨"r1", "q", "c", [".x"], true, "active", none, 0, 1, 1, 1, none⟩], 1⟩)]⟩) := by
  constructor
  · exact (C10_thm _ "example.com" "zzz" (fun r => { r with enabled := false }) 9
      (by decide) (by decide) (by decide)).1
  · exact (C10_thm _ "other.org" "r1" (fun r => { r with enabled := false }) 9
      (by decide) (by decide) (by decide)).2

/-- The child-bound check over a list holds iff it holds per member. -/
theorem snChildBoundedList_iff (k : Nat) :
    ∀ (cs : List SerializedNode),
    snChildBoundedList k cs = true ↔ ∀ n ∈ cs, snChildBounded k n = true := by
  intro cs
  induction cs with
  | nil => simp [snChildBoundedList]
  | cons c rest ih =>
    simp [snChildBoundedList, ih]

/-- An upper bound on each member bounds the list maximum. -/
theorem snHeightList_le (m : Nat) :
    ∀ (cs : List SerializedNode),
    (∀ n ∈ cs, snHeight n ≤ m) → snHeightList cs ≤ m := by
  intro cs
  induction cs with
  | nil => intro _; simp [snHeightList]
  | cons c rest ih =>
    intro h
    simp only [snHeightList, max_le_iff]
    exact ⟨h c (List.mem_cons_self c rest), ih (fun n hn => h n (List.mem_cons_of_mem c hn))⟩

/-- The child loop emits at most its maxChildren budget: each element
child consumes one unit and text nodes consume none. -/
theorem serializeKids_length :
    ∀ (ks : List DomChild) (budget depth : Nat) (opts : SerializationOptions),
    (serializeKids ks budget depth opts).length ≤ budget := by
  intro ks
  induction ks with
  | nil => intro budget depth opts; simp [serializeKids]
  | cons k rest ih =>
    intro budget depth opts
    cases k with
    | text s => simpa [serializeKids] using ih budget depth opts
    | elem e =>
      cases budget with
      | zero => simp [serializeKids]
      | succ b =>
        simp only [serializeKids]
        cases serializeNode e depth opts with
        | none => exact le_trans (ih b depth opts) (Nat.le_succ b)
        | some n =>
          simpa using Nat.succ_le_succ (ih b depth opts)

/-- Every emitted child is the serialization of an element child of the
node, taken at the incremented depth. -/
theorem mem_serializeKids :
    ∀ (ks : List DomChild) (budget depth : Nat) (opts : SerializationOptions)
      (n : SerializedNode), n ∈ serializeKids ks budget depth opts →
    ∃ e, DomChild.elem e ∈ ks ∧ serializeNode e depth opts = some n := by
  intro ks
  induction ks with
  | nil => intro budget depth opts n h; simp [serializeKids] at h
  | cons k rest ih =>
    intro budget depth opts n h
    cases k with
    | text s =>
      simp only [serializeKids] at h
      obtain ⟨e, he, hs⟩ := ih budget depth opts n h
      exact ⟨e, List.mem_cons_of_mem _ he, hs⟩
    | elem e0 =>
      cases budget with
      | zero => simp [serializeKids] at h
      | succ b =>
        simp only [serializeKids] at h
        cases hs : serializeNode e0 depth opts with
        | none =>
          rw [hs] at h
          obtain ⟨e, he, hse⟩ := ih b depth opts n h
          exact ⟨e, List.mem_cons_of_mem _ he, hse⟩
        | some m =>
          rw [hs] at h
          rcases List.mem_cons.mp h with h1 | h1
          · exact ⟨e0, List.mem_cons_self _ _, by rw [hs, h1]⟩
          · obtain ⟨e, he, hse⟩ := ih b depth opts n h1
            exact ⟨e, List.mem_cons_of_mem _ he, hse⟩

/-- A node at a depth beyond maxDepth serializes to null. -/
theorem serializeNode_none_of_depth (el : DomNode) (depth : Nat)
    (opts : SerializationOptions) (h : depth > opts.maxDepth) :
    serializeNode el depth opts = none := by
  cases el with
  | mk tagName id classes attrs style ks =>
    simp [serializeNode, h]

/-- Bounds of serializeNode, by strong induction on the size of the
element: the result tree has at most maxChildren children per node, and
its height added to the starting depth stays within maxDepth + 1. -/
theorem serializeNode_bounds_aux :
    ∀ (N : Nat) (el : DomNode), sizeOf el ≤ N →
    ∀ (depth : Nat) (opts : SerializationOptions) (sn : SerializedNode),
    serializeNode el depth opts = some sn →
    snChildBounded opts.maxChildren sn = true ∧
      snHeight sn + depth ≤ opts.maxDepth + 1 := by
  intro N
  induction N with
  | zero =>
    intro el hsz
    exfalso
    cases el with
    | mk tagName id classes attrs style ks => simp at hsz
  | succ N ih =>
    intro el hsz depth opts sn h
    cases el with
    | mk tagName id classes attrs style ks =>
      simp only [serializeNode] at h
      by_cases h1 : depth > opts.maxDepth
      · simp [h1] at h
      · rw [if_neg h1] at h
        by_cases h2 : SKIP_TAGS.contains (toLowerStr tagName) = true
        · rw [if_pos h2] at h
          simp at h
        · rw [if_neg h2] at h
          by_cases h3 : (!opts.includeHidden &&
              !isVisible (DomNode.mk tagName id classes attrs style ks)) = true
          · rw [if_pos h3] at h
            simp at h
          · rw [if_neg h3] at h
            have hsn := Option.some.inj h
            subst hsn
            have hdep : depth ≤ opts.maxDepth := Nat.le_of_not_lt h1
            have hkids : ∀ n ∈ serializeKids ks opts.maxChildren (depth + 1) opts,
                snChildBounded opts.maxChildren n = true ∧
                  snHeight n + (depth + 1) ≤ opts.maxDepth + 1 := by
              intro n hn
              obtain ⟨e, he, hse⟩ := mem_serializeKids ks _ _ _ n hn
              have hlt1 : sizeOf (DomChild.elem e) < sizeOf ks :=
                List.sizeOf_lt_of_mem he
              have hlt2 : sizeOf e < sizeOf (DomNode.mk tagName id classes attrs style ks) := by
                simp at hlt1 ⊢
                omega
              exact ih e (by omega) (depth + 1) opts n hse
            constructor
            · simp only [snChildBounded, Bool.and_eq_true, decide_eq_true_eq]
              refine ⟨serializeKids_length ks _ _ _, ?_⟩
              rw [snChildBoundedList_iff]
              intro n hn
              exact (hkids n hn).1
            · simp only [snHeight]
              have hlist : snHeightList (serializeKids ks opts.maxChildren (depth + 1) opts) ≤
                  opts.maxDepth - depth := by
                apply snHeightList_le
                intro n hn
                have := (hkids n hn).2
                omega
              omega

/-- Claim C5: serialization never recurses past maxDepth (a node at a
greater depth serializes to null), and every node of the resulting tree
retains at most maxChildren children, the rest being dropped without any
truncation marker (the SerializedNode shape has no such field).  The
height bound states that from depth d the tree reaches at most
maxDepth + 1 - d levels. -/
theorem C5_thm (el : DomNode) (depth : Nat) (opts : SerializationOptions) :
    (depth > opts.maxDepth → serializeNode el depth opts = none) ∧
    (∀ sn, serializeNode el depth opts = some sn →
      snChildBounded opts.maxChildren sn = true ∧
      snHeight sn + depth ≤ opts.maxDepth + 1) :=
  ⟨serializeNode_none_of_depth el depth opts,
   fun sn h => serializeNode_bounds_aux (sizeOf el) el le_rfl depth opts sn h⟩

/-- Witness for C5: a depth-11 call under the default options (maxDepth
10) returns null, and a concrete serialization at depth 0 satisfies both
bounds. -/
theorem C5_witness :
    serializeNode (.mk "DIV" "" [] [] ⟨"block", "visible", 1⟩ []) 11 DEFAULT_OPTIONS = none ∧
    (snChildBounded DEFAULT_OPTIONS.maxChildren
        (SerializedNode.mk "div" none [] [] none none none none []) = true ∧
      snHeight (SerializedNode.mk "div" none [] [] none none none none []) + 0 ≤
        DEFAULT_OPTIONS.maxDepth + 1) := by
  constructor
  · exact (C5_thm (.mk "DIV" "" [] [] ⟨"block", "visible", 1⟩ []) 11 DEFAULT_OPTIONS).1
      (by decide)
  · exact (C5_thm (.mk "DIV" "" [] [] ⟨"block", "visible", 1⟩ []) 0 DEFAULT_OPTIONS).2
      (SerializedNode.mk "div" none [] [] none none none none []) (by rfl)

/-- Claim C6: buildSelector is the deterministic priority cascade of the
element picker, each step returning immediately on a hit: a nonempty id
always yields exactly hash-id whatever other attributes are present;
otherwise the first stable data attribute, then a truthy aria-label,
then tag[role], then up to two non-generated classes; for anchors the
href step returns the exact-path selector when the query-stripped path
is under 50 characters and the partial match on the last two segments
otherwise, and a javascript: href is never used (the cascade falls
through to the bare tag name), which is also the final fallback. -/
theorem C6_thm (element : DomNode) :
    (element.id ≠ "" → buildSelector element = "#" ++ element.id) ∧
    (element.id = "" → ∀ n v, firstStableDataAttr element = some (n, v) →
      buildSelector element = "[" ++ n ++ "=\"" ++ v ++ "\"]") ∧
    (element.id = "" → firstStableDataAttr element = none →
      ∀ v, truthyAttr element "aria-label" = some v →
      buildSelector element = "[aria-label=\"" ++ v ++ "\"]") ∧
    (element.id = "" → firstStableDataAttr element = none →
      truthyAttr element "aria-label" = none →
      ∀ v, truthyAttr element "role" = some v →
      buildSelector element = toLowerStr element.tagName ++ "[role=\"" ++ v ++ "\"]") ∧
    (element.id = "" → firstStableDataAttr element = none →
      truthyAttr element "aria-label" = none → truthyAttr element "role" = none →
      (element.classes.filter (fun c => !(isGeneratedClass c))).take 2 ≠ [] →
      buildSelector element = toLowerStr element.tagName ++ "." ++
        String.intercalate "."
          ((element.classes.filter (fun c => !(isGeneratedClass c))).take 2)) ∧
    (element.id = "" → firstStableDataAttr element = none →
      truthyAttr element "aria-label" = none → truthyAttr element "role" = none →
      (element.classes.filter (fun c => !(isGeneratedClass c))).take 2 = [] →
      toLowerStr element.tagName = "a" →
      ∀ h, truthyAttr element "href" = some h →
      jsStartsWith h "javascript:" = false →
      ((hrefPath h).length < 50 →
        buildSelector element = "a[href=\"" ++ hrefPath h ++ "\"]") ∧
      ((hrefPath h).length ≥ 50 →
        buildSelector element = "a[href*=\"" ++ lastTwoPathSegments (hrefPath h) ++ "\"]")) ∧
    (element.id = "" → firstStableDataAttr element = none →
      truthyAttr element "aria-label" = none → truthyAttr element "role" = none →
      (element.classes.filter (fun c => !(isGeneratedClass c))).take 2 = [] →
      ∀ h, truthyAttr element "href" = some h →
      jsStartsWith h "javascript:" = true →
      buildSelector element = toLowerStr element.tagName) ∧
    (element.id = "" → firstStableDataAttr element = none →
      truthyAttr element "aria-label" = none → truthyAttr element "role" = none →
      (element.classes.filter (fun c => !(isGeneratedClass c))).take 2 = [] →
      (toLowerStr element.tagName ≠ "a" ∨ truthyAttr element "href" = none) →
      buildSelector element = toLowerStr element.tagName) := by
  refine ⟨?_, ?_, ?_, ?_, ?_, ?_, ?_, ?_⟩
  · intro h0
    simp [buildSelector, h0]
  · intro h0 n v hd
    simp [buildSelector, h0, hd]
  · intro h0 hd v ha
    simp [buildSelector, h0, hd, ha]
  · intro h0 hd ha v hr
    simp [buildSelector, h0, hd, ha, hr]
  · intro h0 hd ha hr hcls
    have hemp : ((element.classes.filter (fun c => !(isGeneratedClass c))).take 2).isEmpty = false := by
      simpa [List.isEmpty_iff] using hcls
    simp [buildSelector, h0, hd, ha, hr, hemp]
  · intro h0 hd ha hr hcls htag h hhref hjs
    have hemp : ((element.classes.filter (fun c => !(isGeneratedClass c))).take 2).isEmpty = true := by
      simpa [List.isEmpty_iff] using hcls
    constructor
    · intro hlen
      simp [buildSelector, h0, hd, ha, hr, hemp, htag, hhref, hjs, hlen]
    · intro hlen
      have hnlt : ¬ ((hrefPath h).length < 50) := by omega
      simp [buildSelector, h0, hd, ha, hr, hemp, htag, hhref, hjs, hnlt]
  · intro h0 hd ha hr hcls h hhref hjs
    have hemp : ((element.classes.filter (fun c => !(isGeneratedClass c))).take 2).isEmpty = true := by
      simpa [List.isEmpty_iff] using hcls
    by_cases htag : toLowerStr element.tagName = "a"
    · simp [buildSelector, h0, hd, ha, hr, hemp, htag, hhref, hjs]
    · simp [buildSelector, h0, hd, ha, hr, hemp, htag]
  · intro h0 hd ha hr hcls hlast
    have hemp : ((element.classes.filter (fun c => !(isGeneratedClass c))).take 2).isEmpty = true := by
      simpa [List.isEmpty_iff] using hcls
    rcases hlast with htag | hhref
    · simp [buildSelector, h0, hd, ha, hr, hemp, htag]
    · by_cases htag : toLowerStr element.tagName = "a"
      · simp [buildSelector, h0, hd, ha, hr, hemp, htag, hhref]
      · simp [buildSelector, h0, hd, ha, hr, hemp, htag]

/-- Witness for C6: an element with id keeps hash-id despite other
attributes; a short anchor path gives the exact href selector; a
javascript: href falls through to the bare tag. -/
theorem C6_witness :
    buildSelector
      (.mk "DIV" "main" ["sidebar"] [("id", "main"), ("data-x", "v")]
        ⟨"block", "visible", 1⟩ []) = "#main" ∧
    buildSelector
      (.mk "A" "" [] [("href", "/watch?v=1")] ⟨"block", "visible", 1⟩ []) =
      "a[href=\"/watch\"]" ∧
    buildSelector
      (.mk "A" "" [] [("href", "javascript:void(0)")] ⟨"block", "visible", 1⟩ []) = "a" := by
  refine ⟨?_, ?_, ?_⟩
  · exact (C6_thm _).1 (by decide)
  · exact (((C6_thm (.mk "A" "" [] [("href", "/watch?v=1")] ⟨"block", "visible", 1⟩ [])).2.2.2.2.2.1
      (by decide) (by decide) (by decide) (by decide) (by decide) (by decide)
      "/watch?v=1" (by decide) (by decide)).1 (by decide)).trans (by decide)
  · exact ((C6_thm (.mk "A" "" [] [("href", "javascript:void(0)")] ⟨"block", "visible", 1⟩ [])).2.2.2.2.2.2.1
      (by decide) (by decide) (by decide) (by decide) (by decide)
      "javascript:void(0)" (by decide) (by decide)).trans (by decide)

/-- Claim C7: serializeForLLM returns the focused serialization
(wrapped in its header line) exactly when its length exceeds 500
characters; otherwise it falls back to the whole-page serialization,
truncating at 8000 characters with the trailing truncation marker
whenever the full output exceeds that length; and a hint matching no
elements makes the focused result the empty string, forcing the
fallback. -/
theorem C7_thm (body : DomNode) (userRequest : String) :
    ((serializeFocused body userRequest).length > 500 →
      serializeForLLM body userRequest =
        "## Relevant sections (matching \"" ++ userRequest ++ "\"):\n" ++
          serializeFocused body userRequest) ∧
    ((serializeFocused body userRequest).length ≤ 500 →
      (serializeDOM body DEFAULT_OPTIONS).length > 8000 →
      serializeForLLM body userRequest =
        "## Page structure (truncated):\n" ++
          (serializeDOM body DEFAULT_OPTIONS).take 8000 ++ "\n...[truncated]") ∧
    ((serializeFocused body userRequest).length ≤ 500 →
      (serializeDOM body DEFAULT_OPTIONS).length ≤ 8000 →
      serializeForLLM body userRequest =
        "## Page structure:\n" ++ serializeDOM body DEFAULT_OPTIONS) ∧
    (findRelevantElements body userRequest = [] →
      serializeFocused body userRequest = "") := by
  refine ⟨?_, ?_, ?_, ?_⟩
  · intro h
    simp [serializeForLLM, h]
  · intro h1 h2
    have hn : ¬ ((serializeFocused body userRequest).length > 500) := by omega
    simp [serializeForLLM, hn, h2]
  · intro h1 h2
    have hn : ¬ ((serializeFocused body userRequest).length > 500) := by omega
    have hn2 : ¬ ((serializeDOM body DEFAULT_OPTIONS).length > 8000) := by omega
    simp [serializeForLLM, hn, hn2]
  · intro h
    simp [serializeFocused, h]
    rfl

/-- Witness for C7: on an empty body no element matches the hint, the
focused result is empty and the call falls back to the short whole-page
serialization. -/
theorem C7_witness :
    serializeForLLM (.mk "BODY" "" [] [] ⟨"block", "visible", 1⟩ []) "xyzzy" =
      "## Page structure:\n<body>" ∧
    serializeFocused (.mk "BODY" "" [] [] ⟨"block", "visible", 1⟩ []) "xyzzy" = "" := by
  constructor
  · exact ((C7_thm (.mk "BODY" "" [] [] ⟨"block", "visible", 1⟩ []) "xyzzy").2.2.1
      (by decide) (by decide)).trans (by decide)
  · exact (C7_thm (.mk "BODY" "" [] [] ⟨"block", "visible", 1⟩ []) "xyzzy").2.2.2
      (by decide)
